import Mathlib

/-!
Shallow embedding of the generic methods of the category of complex
reflection groups (`src/sage/categories/complex_reflection_groups.py`).

A concrete group supplies the primitives of the data model: the three
index sets, the per-index lookup of a simple, distinguished or general
reflection, the optional list of irreducible components, and the
optional reflection length of an element.  The methods of the category
are translated below as Lean functions over that data.  Group elements live
in an ambient monoid `M` (the source only uses `one` and `*`).  A
fallible method returns `Except (ReflErr ι) M`; the Python `ValueError`
raised on a label outside an index set is the `ReflErr.invalidIndex`
constructor, which records the offending label and the name of the
family it was checked against.
-/

namespace Sage

/-- A domain error: the label that was looked up and the name of the
index-set family it was checked against ("simple", "hyperplane" or
"reflection", matching the messages in the source). -/
inductive ReflErr (ι : Type) where
  | invalidIndex (label : ι) (family : String)
  deriving DecidableEq

instance {ε α : Type} [DecidableEq ε] [DecidableEq α] : DecidableEq (Except ε α) := fun x y =>
  match x, y with
  | .ok a, .ok b =>
      if h : a = b then isTrue (by rw [h]) else isFalse (fun hh => h (Except.ok.inj hh))
  | .error a, .error b =>
      if h : a = b then isTrue (by rw [h]) else isFalse (fun hh => h (Except.error.inj hh))
  | .ok _, .error _ => isFalse (fun hh => Except.noConfusion hh)
  | .error _, .ok _ => isFalse (fun hh => Except.noConfusion hh)

/-- The primitives a concrete complex reflection group supplies to the
category (source lines 111-224, 359-372, 605-630): the index sets
`index_set`, `hyperplane_index_set`, `reflection_index_set`, the
per-index lookups `simple_reflection`, `distinguished_reflection`,
`reflection`, the optional `irreducible_components` (a list of
component descriptions of type `κ`), and the optional per-element
`reflection_length`. -/
structure CRGroup (ι κ M : Type) where
  index_set : List ι
  hyperplane_index_set : List ι
  reflection_index_set : List ι
  simple_reflection : ι → M
  distinguished_reflection : ι → M
  reflection : ι → M
  irreducible_components : Option (List κ)
  reflection_length : M → Option Nat

variable {ι κ M : Type} [DecidableEq ι] [Monoid M]

/-- Modelled from the spec: `Family(keys, f)` lookup.  The class
`Family` (sage/sets/family.py) is not under `src`; per the spec,
looking up an index not in the index set fails with an invalid-index
domain error, and every key of the index set maps to the value of the
per-index lookup function. -/
def familyLookup (keys : List ι) (f : ι → M) (fam : String) (i : ι) : Except (ReflErr ι) M :=
  if i ∈ keys then .ok (f i) else .error (.invalidIndex i fam)

/-- `simple_reflections()` (source lines 226-243): the family over
`index_set` of the simple reflections, presented as its lookup. -/
def simple_reflections (G : CRGroup ι κ M) (i : ι) : Except (ReflErr ι) M :=
  familyLookup G.index_set G.simple_reflection "simple" i

/-- `distinguished_reflections()` (source lines 245-291): the family
over `hyperplane_index_set` of the distinguished reflections. -/
def distinguished_reflections (G : CRGroup ι κ M) (i : ι) : Except (ReflErr ι) M :=
  familyLookup G.hyperplane_index_set G.distinguished_reflection "hyperplane" i

/-- `reflections()` (source lines 293-336): the family over
`reflection_index_set` of the reflections. -/
def reflections (G : CRGroup ι κ M) (i : ι) : Except (ReflErr ι) M :=
  familyLookup G.reflection_index_set G.reflection "reflection" i

/-- `apply_simple_reflection_left` (source lines 515-537):
`s = parent().simple_reflections(); s[i] * self`. -/
def apply_simple_reflection_left (G : CRGroup ι κ M) (x : M) (i : ι) : Except (ReflErr ι) M :=
  (simple_reflections G i).map (fun s => s * x)

/-- `apply_simple_reflection_right` (source lines 539-561):
`s = parent().simple_reflections(); self * s[i]`. -/
def apply_simple_reflection_right (G : CRGroup ι κ M) (x : M) (i : ι) : Except (ReflErr ι) M :=
  (simple_reflections G i).map (fun s => x * s)

/-- `apply_simple_reflection(i, side)` (source lines 563-603):
dispatches to the right variant when `side == "right"`, else to the
left variant. -/
def apply_simple_reflection (G : CRGroup ι κ M) (x : M) (i : ι) (side : String) :
    Except (ReflErr ι) M :=
  if side = "right" then apply_simple_reflection_right G x i
  else apply_simple_reflection_left G x i

/-- `apply_simple_reflections(word, side)` (source lines 654-688): the
for-loop `for i in word: self = self.apply_simple_reflection(i, side)`,
an exception stopping the loop. -/
def apply_simple_reflections (G : CRGroup ι κ M) (x : M) (word : List ι) (side : String) :
    Except (ReflErr ι) M :=
  match word with
  | [] => .ok x
  | i :: w =>
      match apply_simple_reflection G x i side with
      | .ok y => apply_simple_reflections G y w side
      | .error e => .error e

/-- `apply_distinguished_reflection(i, side)` (source lines 690-726):
after checking `i` against the hyperplane index set, the right side
multiplies by `distinguished_reflection(i)` while the left side
multiplies by `parent().reflection(i)` — translated exactly as the
source has it (line 726). -/
def apply_distinguished_reflection (G : CRGroup ι κ M) (x : M) (i : ι) (side : String) :
    Except (ReflErr ι) M :=
  if i ∈ G.hyperplane_index_set then
    if side = "right" then .ok (x * G.distinguished_reflection i)
    else .ok (G.reflection i * x)
  else .error (.invalidIndex i "hyperplane")

/-- `apply_distinguished_reflections(word, side)` (source lines
728-752): the for-loop over the word. -/
def apply_distinguished_reflections (G : CRGroup ι κ M) (x : M) (word : List ι) (side : String) :
    Except (ReflErr ι) M :=
  match word with
  | [] => .ok x
  | i :: w =>
      match apply_distinguished_reflection G x i side with
      | .ok y => apply_distinguished_reflections G y w side
      | .error e => .error e

/-- `apply_reflection(i, side)` (source lines 754-790): after checking
`i` against the reflection index set, multiplies by `reflection(i)` on
the requested side. -/
def apply_reflection (G : CRGroup ι κ M) (x : M) (i : ι) (side : String) :
    Except (ReflErr ι) M :=
  if i ∈ G.reflection_index_set then
    if side = "right" then .ok (x * G.reflection i)
    else .ok (G.reflection i * x)
  else .error (.invalidIndex i "reflection")

/-- `apply_reflections(word, side)` (source lines 792-815): the
for-loop over the word. -/
def apply_reflections (G : CRGroup ι κ M) (x : M) (word : List ι) (side : String) :
    Except (ReflErr ι) M :=
  match word with
  | [] => .ok x
  | i :: w =>
      match apply_reflection G x i side with
      | .ok y => apply_reflections G y w side
      | .error e => .error e

/-- `from_word(word, word_type)` (source lines 410-453): picks the
element-level folding function by `word_type` and applies it to the
word from the identity with `side="right"`.  A `word_type` other than
the three recognised strings leaves `f` unassigned in the source and
the call crashes, modelled as `none`. -/
def from_word (G : CRGroup ι κ M) (word : List ι) (word_type : String) :
    Option (Except (ReflErr ι) M) :=
  if word_type = "simple" then some (apply_simple_reflections G 1 word "right")
  else if word_type = "distinguished" then some (apply_distinguished_reflections G 1 word "right")
  else if word_type = "all" then some (apply_reflections G 1 word "right")
  else none

/-- `prod` of sage.misc (a sequential product of an iterable, the
identity on the empty one), as used by `an_element` and
`some_elements`. -/
def sage_prod (l : List M) : M :=
  l.foldl (fun a b => a * b) 1

/-- `an_element()` (source lines 374-386):
`prod(reflection(i) for i in index_set())`. -/
def an_element (G : CRGroup ι κ M) : M :=
  sage_prod (G.index_set.map G.reflection)

/-- The spec reading of `an_element`: the product of the general
reflections over `reflection_index_set` in its order.  Declared only
for comparison with the source definition `an_element`. -/
def an_element_spec_reading (G : CRGroup ι κ M) : M :=
  sage_prod (G.reflection_index_set.map G.reflection)

/-- Modelled from the spec: `nr_irreducible_components`, called by
`is_irreducible` (source line 489), is not defined under `src`; per the
spec it is the number of irreducible components supplied by the
concrete group. -/
def nr_irreducible_components (G : CRGroup ι κ M) : Option Nat :=
  G.irreducible_components.map List.length

/-- `is_irreducible()` (source lines 473-489):
`nr_irreducible_components() == 1`. -/
def is_irreducible (G : CRGroup ι κ M) : Option Bool :=
  (nr_irreducible_components G).map (fun n => n == 1)

/-- `is_reducible()` (source lines 491-507): `not is_irreducible()`. -/
def is_reducible (G : CRGroup ι κ M) : Option Bool :=
  (is_irreducible G).map (fun b => !b)

/-- `Irreducible.ParentMethods.irreducible_components` (source lines
821-833): a group declaring the `Irreducible` axiom has `[self]` as its
irreducible components. -/
def irreducible_components_of_irreducible (g : κ) : List κ :=
  [g]

/-- `is_reflection()` (source lines 632-652):
`reflection_length() == 1`, failing where `reflection_length` is not
defined. -/
def is_reflection (G : CRGroup ι κ M) (x : M) : Option Bool :=
  (G.reflection_length x).map (fun n => n == 1)

/-- A concrete instance used for witnesses and counterexamples:
elements in the multiplicative monoid of `ZMod 5`, one simple label,
two hyperplane and reflection labels, with the distinguished and
general reflection at label `1` distinct. -/
def exG : CRGroup Nat String (ZMod 5) where
  index_set := [0]
  hyperplane_index_set := [0, 1]
  reflection_index_set := [0, 1]
  simple_reflection := fun i => if i = 0 then 2 else 1
  distinguished_reflection := fun i => if i = 0 then 2 else 3
  reflection := fun i => if i = 0 then 2 else 4
  irreducible_components := some ["A2", "B3"]
  reflection_length := fun x => if x = 1 then some 0 else if x = 2 then some 1 else none

/-- A variant of `exG` whose irreducible-components primitive returns a
single component, as the `Irreducible` axiom default does. -/
def exGirr : CRGroup Nat String (ZMod 5) :=
  { exG with irreducible_components := some ["W"] }

theorem asr_cons (G : CRGroup ι κ M) (x : M) (i : ι) (w : List ι) (side : String) :
    apply_simple_reflections G x (i :: w) side =
      match apply_simple_reflection G x i side with
      | .ok y => apply_simple_reflections G y w side
      | .error e => .error e := rfl

theorem adr_cons (G : CRGroup ι κ M) (x : M) (i : ι) (w : List ι) (side : String) :
    apply_distinguished_reflections G x (i :: w) side =
      match apply_distinguished_reflection G x i side with
      | .ok y => apply_distinguished_reflections G y w side
      | .error e => .error e := rfl

theorem ar_cons (G : CRGroup ι κ M) (x : M) (i : ι) (w : List ι) (side : String) :
    apply_reflections G x (i :: w) side =
      match apply_reflection G x i side with
      | .ok y => apply_reflections G y w side
      | .error e => .error e := rfl

theorem asr_step_mem (G : CRGroup ι κ M) (x : M) (i : ι) (side : String)
    (h : i ∈ G.index_set) :
    apply_simple_reflection G x i side =
      .ok (if side = "right" then x * G.simple_reflection i
        else G.simple_reflection i * x) := by
  by_cases hs : side = "right" <;>
    simp [apply_simple_reflection, apply_simple_reflection_right, apply_simple_reflection_left,
      simple_reflections, familyLookup, h, hs, Except.map]

theorem asr_step_invalid (G : CRGroup ι κ M) (x : M) (j : ι) (side : String)
    (h : j ∉ G.index_set) :
    apply_simple_reflection G x j side = .error (.invalidIndex j "simple") := by
  by_cases hs : side = "right" <;>
    simp [apply_simple_reflection, apply_simple_reflection_right, apply_simple_reflection_left,
      simple_reflections, familyLookup, h, hs, Except.map]

theorem adr_step_mem (G : CRGroup ι κ M) (x : M) (i : ι) (side : String)
    (h : i ∈ G.hyperplane_index_set) :
    apply_distinguished_reflection G x i side =
      .ok (if side = "right" then x * G.distinguished_reflection i
        else G.reflection i * x) := by
  by_cases hs : side = "right" <;> simp [apply_distinguished_reflection, h, hs]

theorem adr_step_invalid (G : CRGroup ι κ M) (x : M) (j : ι) (side : String)
    (h : j ∉ G.hyperplane_index_set) :
    apply_distinguished_reflection G x j side = .error (.invalidIndex j "hyperplane") := by
  simp [apply_distinguished_reflection, h]

theorem ar_step_mem (G : CRGroup ι κ M) (x : M) (i : ι) (side : String)
    (h : i ∈ G.reflection_index_set) :
    apply_reflection G x i side =
      .ok (if side = "right" then x * G.reflection i else G.reflection i * x) := by
  by_cases hs : side = "right" <;> simp [apply_reflection, h, hs]

theorem ar_step_invalid (G : CRGroup ι κ M) (x : M) (j : ι) (side : String)
    (h : j ∉ G.reflection_index_set) :
    apply_reflection G x j side = .error (.invalidIndex j "reflection") := by
  simp [apply_reflection, h]

theorem asr_append (G : CRGroup ι κ M) (x : M) (w1 w2 : List ι) (side : String) :
    apply_simple_reflections G x (w1 ++ w2) side =
      match apply_simple_reflections G x w1 side with
      | .ok y => apply_simple_reflections G y w2 side
      | .error e => .error e := by
  induction w1 generalizing x with
  | nil => rfl
  | cons i w ih =>
      rw [List.cons_append, asr_cons, asr_cons]
      cases apply_simple_reflection G x i side with
      | ok y => exact ih y
      | error e => rfl

theorem asr_shift (G : CRGroup ι κ M) (x : M) (w : List ι) :
    apply_simple_reflections G x w "right" =
      (apply_simple_reflections G 1 w "right").map (fun y => x * y) := by
  induction w generalizing x with
  | nil => simp [apply_simple_reflections, Except.map]
  | cons i w ih =>
      rw [asr_cons, asr_cons]
      cases hstep : apply_simple_reflection G x i "right" with
      | error e =>
          have heq : apply_simple_reflection G 1 i "right" = .error e := by
            simp only [apply_simple_reflection, if_pos rfl,
              apply_simple_reflection_right] at hstep ⊢
            cases hfam : simple_reflections G i with
            | ok s => rw [hfam] at hstep; exact absurd hstep (by simp [Except.map])
            | error e2 => rw [hfam] at hstep; simp [Except.map] at hstep ⊢; exact hstep
          rw [heq]
          rfl
      | ok y =>
          obtain ⟨s, hfam, hy⟩ : ∃ s, simple_reflections G i = .ok s ∧ y = x * s := by
            simp only [apply_simple_reflection, if_pos rfl,
              apply_simple_reflection_right] at hstep
            cases hfam : simple_reflections G i with
            | ok s => rw [hfam] at hstep; simp [Except.map] at hstep; exact ⟨s, rfl, hstep.symm⟩
            | error e2 => rw [hfam] at hstep; simp [Except.map] at hstep
          have hone : apply_simple_reflection G 1 i "right" = .ok (1 * s) := by
            simp only [apply_simple_reflection, if_pos rfl, apply_simple_reflection_right, hfam]
            rfl
          rw [hone]
          dsimp only
          rw [ih y, ih (1 * s), one_mul, hy]
          cases apply_simple_reflections G 1 w "right" <;> simp [Except.map, mul_assoc]

theorem asr_ok_of_valid (G : CRGroup ι κ M) (x : M) (w : List ι)
    (h : ∀ i ∈ w, i ∈ G.index_set) :
    ∃ a, apply_simple_reflections G x w "right" = .ok a := by
  induction w generalizing x with
  | nil => exact ⟨x, rfl⟩
  | cons i w ih =>
      rw [asr_cons, asr_step_mem G x i "right" (h i (by simp))]
      exact ih _ (fun j hj => h j (by simp [hj]))

theorem asr_invalid (G : CRGroup ι κ M) (x : M) (side : String)
    (w1 : List ι) (j : ι) (w2 : List ι)
    (h1 : ∀ i ∈ w1, i ∈ G.index_set) (hj : j ∉ G.index_set) :
    apply_simple_reflections G x (w1 ++ j :: w2) side = .error (.invalidIndex j "simple") := by
  induction w1 generalizing x with
  | nil =>
      rw [List.nil_append, asr_cons, asr_step_invalid G x j side hj]
  | cons i w ih =>
      rw [List.cons_append, asr_cons, asr_step_mem G x i side (h1 i (by simp))]
      exact ih _ (fun k hk => h1 k (by simp [hk]))

theorem adr_invalid (G : CRGroup ι κ M) (x : M) (side : String)
    (w1 : List ι) (j : ι) (w2 : List ι)
    (h1 : ∀ i ∈ w1, i ∈ G.hyperplane_index_set) (hj : j ∉ G.hyperplane_index_set) :
    apply_distinguished_reflections G x (w1 ++ j :: w2) side =
      .error (.invalidIndex j "hyperplane") := by
  induction w1 generalizing x with
  | nil =>
      rw [List.nil_append, adr_cons, adr_step_invalid G x j side hj]
  | cons i w ih =>
      rw [List.cons_append, adr_cons, adr_step_mem G x i side (h1 i (by simp))]
      exact ih _ (fun k hk => h1 k (by simp [hk]))

theorem ar_invalid (G : CRGroup ι κ M) (x : M) (side : String)
    (w1 : List ι) (j : ι) (w2 : List ι)
    (h1 : ∀ i ∈ w1, i ∈ G.reflection_index_set) (hj : j ∉ G.reflection_index_set) :
    apply_reflections G x (w1 ++ j :: w2) side = .error (.invalidIndex j "reflection") := by
  induction w1 generalizing x with
  | nil =>
      rw [List.nil_append, ar_cons, ar_step_invalid G x j side hj]
  | cons i w ih =>
      rw [List.cons_append, ar_cons, ar_step_mem G x i side (h1 i (by simp))]
      exact ih _ (fun k hk => h1 k (by simp [hk]))

/-- Claim C1, amended: `an_element` is the product of the general
reflections `reflection(i)` taken over the simple-reflection index set
`index_set`, multiplied in the order of that set — not over
`reflection_index_set` as the claim states. -/
theorem an_element_eq_prod_over_index_set (G : CRGroup ι κ M) :
    an_element G = (G.index_set.map G.reflection).prod := by
  rw [an_element, sage_prod, List.prod_eq_foldl]

/-- Claim C1, counterexample: on the concrete group `exG` the value of
`an_element` differs from the product of the general reflections over
the reflection index set, so the claim as stated is false. -/
theorem an_element_counterexample :
    an_element exG = 2 ∧ an_element_spec_reading exG = 3 ∧
      an_element exG ≠ an_element_spec_reading exG := by
  decide

/-- Claim C2, amended: for each of the recognised word types "simple",
"distinguished" and "all", `from_word` on the empty word returns the
identity element; an unrecognised word type fails instead. -/
theorem from_word_nil_valid_type (G : CRGroup ι κ M) (wt : String)
    (h : wt = "simple" ∨ wt = "distinguished" ∨ wt = "all") :
    from_word G [] wt = some (.ok 1) := by
  rcases h with h | h | h <;> subst h <;> rfl

theorem from_word_nil_valid_type_witness :
    from_word exG ([] : List Nat) "simple" = some (.ok 1) :=
  from_word_nil_valid_type exG "simple" (Or.inl rfl)

/-- Claim C2, counterexample: with the word type "zzz", which is none
of the three recognised values, `from_word` on the empty word does not
return the identity element: it crashes (the source leaves `f`
unassigned), modelled by `none`. -/
theorem from_word_nil_counterexample :
    from_word exG ([] : List Nat) "zzz" = none ∧
      from_word exG ([] : List Nat) "zzz" ≠ some (Except.ok 1) := by
  decide

/-- Claim C3: for words over the simple index set, `from_word` with the
default word type "simple" (which folds on the right) sends
concatenation to multiplication: `from_word (w1 ++ w2)` is the product
of `from_word w1` and `from_word w2`. -/
theorem from_word_concat_right (G : CRGroup ι κ M) (w1 w2 : List ι)
    (h1 : ∀ i ∈ w1, i ∈ G.index_set) (h2 : ∀ i ∈ w2, i ∈ G.index_set) :
    ∃ a b, from_word G w1 "simple" = some (.ok a) ∧
      from_word G w2 "simple" = some (.ok b) ∧
      from_word G (w1 ++ w2) "simple" = some (.ok (a * b)) := by
  obtain ⟨a, ha⟩ := asr_ok_of_valid G 1 w1 h1
  obtain ⟨b, hb⟩ := asr_ok_of_valid G 1 w2 h2
  refine ⟨a, b, ?_, ?_, ?_⟩
  · show some (apply_simple_reflections G 1 w1 "right") = _
    rw [ha]
  · show some (apply_simple_reflections G 1 w2 "right") = _
    rw [hb]
  · show some (apply_simple_reflections G 1 (w1 ++ w2) "right") = _
    rw [asr_append, ha]
    dsimp only
    rw [asr_shift, hb]
    rfl

theorem from_word_concat_right_witness :
    ∃ a b, from_word exG [0] "simple" = some (.ok a) ∧
      from_word exG [0, 0] "simple" = some (.ok b) ∧
      from_word exG ([0] ++ [0, 0]) "simple" = some (.ok (a * b)) :=
  from_word_concat_right exG [0] [0, 0] (by decide) (by decide)

/-- Claim C4 (code bug, source line 726): on the right side
`apply_distinguished_reflection` multiplies by the distinguished
reflection, as the claim and the docstring of the method say, but on
the left side it multiplies by `parent().reflection(i)` instead of
`distinguished_reflection(i)`.  On `exG` with hyperplane label 1 the
two differ: the left result is `reflection 1 * 1 = 4` while the
claimed value is `distinguished_reflection 1 * 1 = 3`. -/
theorem apply_distinguished_reflection_left_bug :
    apply_distinguished_reflection exG (1 : ZMod 5) 1 "right" =
      .ok (1 * exG.distinguished_reflection 1) ∧
    apply_distinguished_reflection exG (1 : ZMod 5) 1 "left" =
      .ok (exG.reflection 1 * 1) ∧
    apply_distinguished_reflection exG (1 : ZMod 5) 1 "left" ≠
      .ok (exG.distinguished_reflection 1 * 1) := by
  decide

/-- Claim C5: for each word type, a word whose first invalid label is
`j` (the labels before `j` lie in the consulted index set, `j` does
not) evaluates to a domain error naming `j` and the family it was
checked against, for either side and any suffix of the word. -/
theorem word_invalid_label_error (G : CRGroup ι κ M) (x : M) (side : String)
    (w1 : List ι) (j : ι) (w2 : List ι) :
    ((∀ i ∈ w1, i ∈ G.index_set) → j ∉ G.index_set →
      apply_simple_reflections G x (w1 ++ j :: w2) side =
        .error (.invalidIndex j "simple")) ∧
    ((∀ i ∈ w1, i ∈ G.hyperplane_index_set) → j ∉ G.hyperplane_index_set →
      apply_distinguished_reflections G x (w1 ++ j :: w2) side =
        .error (.invalidIndex j "hyperplane")) ∧
    ((∀ i ∈ w1, i ∈ G.reflection_index_set) → j ∉ G.reflection_index_set →
      apply_reflections G x (w1 ++ j :: w2) side =
        .error (.invalidIndex j "reflection")) :=
  ⟨fun h1 hj => asr_invalid G x side w1 j w2 h1 hj,
   fun h1 hj => adr_invalid G x side w1 j w2 h1 hj,
   fun h1 hj => ar_invalid G x side w1 j w2 h1 hj⟩

theorem word_invalid_label_error_witness :
    apply_simple_reflections exG (1 : ZMod 5) ([0] ++ 5 :: [7]) "right" =
      .error (.invalidIndex 5 "simple") ∧
    apply_distinguished_reflections exG (1 : ZMod 5) ([0] ++ 5 :: [7]) "right" =
      .error (.invalidIndex 5 "hyperplane") ∧
    apply_reflections exG (1 : ZMod 5) ([0] ++ 5 :: [7]) "right" =
      .error (.invalidIndex 5 "reflection") := by
  have h := word_invalid_label_error exG (1 : ZMod 5) "right" [0] 5 [7]
  exact ⟨h.1 (by decide) (by decide), h.2.1 (by decide) (by decide),
    h.2.2 (by decide) (by decide)⟩

/-- Claim C6: for a label in the index set, the single-index lookup
`simple_reflection` and the cached family `simple_reflections` agree. -/
theorem simple_reflection_eq_family (G : CRGroup ι κ M) (i : ι) (h : i ∈ G.index_set) :
    simple_reflections G i = .ok (G.simple_reflection i) := by
  simp [simple_reflections, familyLookup, h]

theorem simple_reflection_eq_family_witness :
    simple_reflections exG 0 = .ok (exG.simple_reflection 0) :=
  simple_reflection_eq_family exG 0 (by decide)

/-- Claim C7: where `reflection_length` is defined, `is_reflection`
returns true exactly when the reflection length is 1. -/
theorem is_reflection_iff_length_one (G : CRGroup ι κ M) (x : M) (n : Nat)
    (h : G.reflection_length x = some n) :
    is_reflection G x = some (n == 1) ∧ (is_reflection G x = some true ↔ n = 1) := by
  constructor
  · simp [is_reflection, h]
  · simp [is_reflection, h]

theorem is_reflection_iff_length_one_witness :
    is_reflection exG (2 : ZMod 5) = some true :=
  ((is_reflection_iff_length_one exG 2 1 (by decide)).2).mpr rfl

/-- Claim C8: the default element primitives multiply by the family
element on the requested side, and `apply_simple_reflection`
dispatches on `side` to the right variant for "right" (the default)
and to the left variant for "left". -/
theorem apply_simple_reflection_defaults (G : CRGroup ι κ M) (x : M) (i : ι)
    (h : i ∈ G.index_set) :
    apply_simple_reflection_right G x i = .ok (x * G.simple_reflection i) ∧
    apply_simple_reflection_left G x i = .ok (G.simple_reflection i * x) ∧
    apply_simple_reflection G x i "right" = apply_simple_reflection_right G x i ∧
    apply_simple_reflection G x i "left" = apply_simple_reflection_left G x i := by
  refine ⟨?_, ?_, rfl, rfl⟩ <;>
    simp [apply_simple_reflection_right, apply_simple_reflection_left, simple_reflections,
      familyLookup, h, Except.map]

theorem apply_simple_reflection_defaults_witness :
    apply_simple_reflection_right exG (3 : ZMod 5) 0 = .ok (3 * exG.simple_reflection 0) ∧
    apply_simple_reflection_left exG (3 : ZMod 5) 0 = .ok (exG.simple_reflection 0 * 3) ∧
    apply_simple_reflection exG (3 : ZMod 5) 0 "right" =
      apply_simple_reflection_right exG 3 0 ∧
    apply_simple_reflection exG (3 : ZMod 5) 0 "left" =
      apply_simple_reflection_left exG 3 0 :=
  apply_simple_reflection_defaults exG 3 0 (by decide)

/-- Claim C9: when the irreducible-components primitive is supplied,
`is_irreducible` is true exactly when there is one component,
`is_reducible` is its negation, and a group declaring the
`Irreducible` axiom (components `[self]`) is irreducible. -/
theorem is_irreducible_iff_one_component (G : CRGroup ι κ M) (cs : List κ)
    (h : G.irreducible_components = some cs) :
    (is_irreducible G = some true ↔ cs.length = 1) ∧
    (∀ b, is_irreducible G = some b → is_reducible G = some (!b)) ∧
    (∀ g : κ, cs = irreducible_components_of_irreducible g → is_irreducible G = some true) := by
  refine ⟨?_, ?_, ?_⟩
  · simp [is_irreducible, nr_irreducible_components, h]
  · intro b hb
    simp [is_reducible, hb]
  · intro g hg
    subst hg
    simp [is_irreducible, nr_irreducible_components, h, irreducible_components_of_irreducible]

theorem is_irreducible_iff_one_component_witness :
    is_irreducible exGirr = some true ∧ is_reducible exGirr = some false := by
  have h := is_irreducible_iff_one_component exGirr ["W"] rfl
  have ht : is_irreducible exGirr = some true := h.1.mpr rfl
  exact ⟨ht, h.2.1 true ht⟩

/-- Claim C10: for every element `x` and either side, applying the
empty word by any of the three folding methods leaves `x` unchanged. -/
theorem apply_empty_word_identity (G : CRGroup ι κ M) (x : M) (side : String) :
    apply_simple_reflections G x [] side = .ok x ∧
    apply_distinguished_reflections G x [] side = .ok x ∧
    apply_reflections G x [] side = .ok x :=
  ⟨rfl, rfl, rfl⟩

end Sage
